import Mathlib

/-!
Verification of the decoratable HTTP request pipeline with TTL caching.

This file gives a shallow embedding of the middleware decorator chain
(`Structural Patterns/Decorator Pattern/Middleware/main.py`) and of the TTL
caching proxy (`Structural Patterns/Proxy Pattern/StockAPI/main.py`).

Modelling conventions:
- Python `dict`s become association lists with first-match lookup and
  replace-or-append update, mirroring `dict.get`, `dict[k] = v`, `del dict[k]`.
- `datetime.now()` / `time.time()` become explicit `Int` time parameters,
  threaded into each `handle` call; `timedelta(seconds = s)` becomes `+ s`.
- Per-object mutable state (`self.cache`, `self.request_log`, `self.metrics`)
  becomes explicit state passing: each `handle` embedding takes the unit state
  and returns the updated state.  The number of delegations to the wrapped
  handler is returned as an explicit `Nat` so that short-circuiting is
  observable.
- Exceptions (`HTTPException`) become `Except`; a Python method body that
  cannot raise is embedded with result `Except.ok` everywhere.
- Python aliasing of response objects is modelled twice: a value-semantics
  embedding (with an explicit write-back where the source mutates a stored
  object) used for the functional claims, and a reference-semantics embedding
  with an explicit response heap (`ResponseHeap`) used to reason about
  mutation of already-returned responses.
-/

namespace Middleware

/-- Association-list lookup, mirroring Python `dict.get` (first match). -/
def assocGet {β : Type} : List (String × β) → String → Option β
  | [], _ => none
  | (k1, v) :: rest, k => if k1 = k then some v else assocGet rest k

/-- Association-list update, mirroring Python `dict[k] = v`
(replace the existing binding, else append). -/
def assocSet {β : Type} : List (String × β) → String → β → List (String × β)
  | [], k, v => [(k, v)]
  | (k1, v1) :: rest, k, v =>
    if k1 = k then (k1, v) :: rest else (k1, v1) :: assocSet rest k v

/-- Association-list deletion, mirroring Python `del dict[k]`. -/
def assocRemove {β : Type} : List (String × β) → String → List (String × β)
  | [], _ => []
  | (k1, v1) :: rest, k =>
    if k1 = k then rest else (k1, v1) :: assocRemove rest k

/-- HTTPMethod enum from the source. -/
inductive HTTPMethod where
  | GET
  | POST
  | PUT
  | DELETE
  | PATCH
deriving DecidableEq, Repr

/-- The `.value` string of each enum member. -/
def HTTPMethod.value : HTTPMethod → String
  | .GET => "GET"
  | .POST => "POST"
  | .PUT => "PUT"
  | .DELETE => "DELETE"
  | .PATCH => "PATCH"

/-- HTTPRequest dataclass.  The `timestamp` creation-time field of the source
is never consulted by the embedded operations and is omitted; `context`
values are strings in this model (the source stores a user id string and a
boolean flag, embedded as the strings "True" / "False"). -/
structure HTTPRequest where
  method : HTTPMethod
  path : String
  headers : List (String × String)
  body : Option String
  query_params : List (String × String)
  context : List (String × String)
  request_id : Option String
deriving DecidableEq, Repr

/-- Python `str.lower()`, embedded as an ASCII character-wise lowering over
the character list (this form computes in the kernel). -/
def strLower (s : String) : String := String.mk (s.data.map Char.toLower)

/-- HTTPRequest.get_header: case-insensitive lookup is implemented by
lowercasing the queried name only (`self.headers.get(name.lower(), default)`). -/
def HTTPRequest.get_header (r : HTTPRequest) (name : String)
    (dflt : Option String) : Option String :=
  match assocGet r.headers (strLower name) with
  | some v => some v
  | none => dflt

/-- HTTPRequest.set_header: stores under the lowercased name. -/
def HTTPRequest.set_header (r : HTTPRequest) (name value : String) : HTTPRequest :=
  { r with headers := assocSet r.headers (strLower name) value }

/-- HTTPResponse dataclass.  `execution_time_ms` is a wall-clock measurement
in the source; it is embedded as an abstract `Option Nat`. -/
structure HTTPResponse where
  status_code : Int
  body : String
  headers : List (String × String)
  execution_time_ms : Option Nat
deriving DecidableEq, Repr

/-- HTTPResponse.set_header (lowercased storage, like the request). -/
def HTTPResponse.set_header (r : HTTPResponse) (name value : String) : HTTPResponse :=
  { r with headers := assocSet r.headers (strLower name) value }

/-- HTTPResponse.is_success: `200 <= status_code < 300`. -/
def HTTPResponse.is_success (r : HTTPResponse) : Bool :=
  decide (200 ≤ r.status_code) && decide (r.status_code < 300)

/-- HTTPException carries a status code and a message. -/
structure HTTPException where
  status_code : Int
  message : String
deriving DecidableEq, Repr

/-- Configuration fault named by the spec taxonomy (`ConfigurationError`).
No constructor in the source ever raises it. -/
structure ConfigurationError where
  message : String
deriving DecidableEq, Repr

/-- Deterministic rendering of the query-parameter mapping, standing for the
Python `repr` of the dict inside the key f-string. -/
def queryParamsRepr : List (String × String) → String
  | [] => ""
  | (k, v) :: rest => k ++ "=" ++ v ++ ";" ++ queryParamsRepr rest

/-- CachingMiddleware._generate_cache_key.  The source interpolates
`"METHOD:path:query"` and md5-hashes it; since md5 is a deterministic
function of the pre-image, the embedding keeps the pre-image string itself
as the key. -/
def generate_cache_key (r : HTTPRequest) : String :=
  r.method.value ++ ":" ++ r.path ++ ":" ++ queryParamsRepr r.query_params

/-- CachingMiddleware state: ttl_seconds plus the table
`cache_key ↦ (response, expiry_time)`. -/
structure CacheState where
  ttl_seconds : Int
  cache : List (String × (HTTPResponse × Int))
deriving DecidableEq, Repr

/-- CachingMiddleware.__init__ : stores `ttl_seconds` and an empty table.
The source performs no validation whatsoever, so the constructor cannot
produce a `ConfigurationError`; the `Except` result type records exactly
that absence of a construction-time fault. -/
def cachingInit (ttl_seconds : Int) : Except ConfigurationError CacheState :=
  Except.ok { ttl_seconds := ttl_seconds, cache := [] }

/-- Miss path of CachingMiddleware.handle (the code after the cache check):
delegate, then store only successful responses.  In the source the response
object is stored and *then* mutated with the `x-cache: MISS` header, so the
stored object carries that header; the embedding stores the updated value. -/
def cachingFetch (inner : HTTPRequest → HTTPResponse)
    (st : CacheState) (now : Int) (req : HTTPRequest) (key : String) :
    HTTPResponse × CacheState × Nat :=
  let response := inner req
  if response.is_success then
    let stored := response.set_header "x-cache" "MISS"
    (stored,
     { st with cache := assocSet st.cache key (stored, now + st.ttl_seconds) },
     1)
  else
    (response, st, 1)

/-- CachingMiddleware.handle.  Non-GET requests bypass the cache entirely.
On a fresh hit the source mutates the cached object with `x-cache: HIT`;
since the table aliases that object, the embedding writes the updated value
back into the table.  On an expired entry the source `del`s it and falls
through to the miss path. -/
def cachingHandle (inner : HTTPRequest → HTTPResponse)
    (st : CacheState) (now : Int) (req : HTTPRequest) :
    HTTPResponse × CacheState × Nat :=
  if req.method ≠ HTTPMethod.GET then
    (inner req, st, 1)
  else
    let key := generate_cache_key req
    match assocGet st.cache key with
    | some (cached_response, expiry) =>
      if now < expiry then
        let hitResp := cached_response.set_header "x-cache" "HIT"
        (hitResp, { st with cache := assocSet st.cache key (hitResp, expiry) }, 0)
      else
        cachingFetch inner { st with cache := assocRemove st.cache key } now req key
    | none => cachingFetch inner st now req key

/-- StockData dataclass of the proxy example (price embedded as `Rat`,
timestamp as `Int`). -/
structure StockData where
  ticker : String
  price : Rat
  timestamp : Int
deriving DecidableEq, Repr

/-- CachingProxy state: the fixed ttl and the table `ticker ↦ StockData`. -/
structure ProxyState where
  cache_ttl : Int
  cache : List (String × StockData)
deriving DecidableEq, Repr

/-- CachingProxy.__init__ : stores the ttl and an empty table; like the
middleware constructor it performs no validation and cannot fault. -/
def cachingProxyInit (cache_ttl_seconds : Int) : Except ConfigurationError ProxyState :=
  Except.ok { cache_ttl := cache_ttl_seconds, cache := [] }

/-- CachingProxy.get_stock_price: fresh iff `now - stored.timestamp < ttl`;
on a miss or an expired entry it delegates once and stores the fresh data
(the proxy stores unconditionally; `StockData` has no failure status). -/
def get_stock_price (real_service : String → StockData)
    (st : ProxyState) (now : Int) (ticker : String) :
    StockData × ProxyState × Nat :=
  match assocGet st.cache ticker with
  | some cached_item =>
    if now - cached_item.timestamp < st.cache_ttl then
      (cached_item, st, 0)
    else
      let fresh_data := real_service ticker
      (fresh_data, { st with cache := assocSet st.cache ticker fresh_data }, 1)
  | none =>
    let fresh_data := real_service ticker
    (fresh_data, { st with cache := assocSet st.cache ticker fresh_data }, 1)

/-- Body of the 401 produced when no credential is presented
(`json.dumps` of the source's error dict). -/
def authBody401Required : String :=
  "\x7b\"error\": \"Authentication required\"\x7d"

/-- Body of the 401 produced for an unknown token. -/
def authBody401Invalid : String :=
  "\x7b\"error\": \"Invalid authentication token\"\x7d"

/-- AuthenticationMiddleware.handle.  The guard runs before any delegation:
a missing header (Python truthiness also rejects the empty string) or a token
outside `valid_tokens` short-circuits to a 401 *returned* response; on
success the user id and admin flag are written into the request context and
the wrapped handler is called exactly once.  The method body raises nothing,
so the embedded result is `Except.ok` unless the wrapped handler faults. -/
def authHandle (valid_tokens : List String)
    (inner : HTTPRequest → Except HTTPException HTTPResponse)
    (req : HTTPRequest) : Except HTTPException HTTPResponse × Nat :=
  match req.get_header "authorization" none with
  | none =>
    (Except.ok { status_code := 401, body := authBody401Required,
                 headers := [], execution_time_ms := none }, 0)
  | some auth_header =>
    if auth_header = "" then
      (Except.ok { status_code := 401, body := authBody401Required,
                   headers := [], execution_time_ms := none }, 0)
    else
      let token := auth_header.replace "Bearer " ""
      if token ∈ valid_tokens then
        let user_id := if token = "secret-token-123" then "user_123" else "admin_456"
        let is_admin := if token.startsWith "admin" then "True" else "False"
        let req1 := { req with
          context := assocSet (assocSet req.context "user_id" user_id) "is_admin" is_admin }
        (inner req1, 1)
      else
        (Except.ok { status_code := 401, body := authBody401Invalid,
                     headers := [], execution_time_ms := none }, 0)

/-- The guard condition under which AuthenticationMiddleware rejects:
credential missing (or empty, which Python truthiness treats as missing) or
the stripped token not in the valid set. -/
def authRejected (valid_tokens : List String) (req : HTTPRequest) : Bool :=
  match req.get_header "authorization" none with
  | none => true
  | some auth_header =>
    auth_header = "" || !((auth_header.replace "Bearer " "") ∈ valid_tokens)

/-- RateLimitingMiddleware state: configuration plus the per-user request
log `user_id ↦ [(timestamp, count)]` (a `defaultdict(list)`). -/
structure RateLimitState where
  max_requests : Nat
  window_seconds : Int
  request_log : List (String × List (Int × Nat))
deriving DecidableEq, Repr

/-- Body of the 429 response (`json.dumps` of the source's error dict). -/
def rateLimitBody429 (window_seconds : Int) : String :=
  "\x7b\"error\": \"Rate limit exceeded\", \"retry_after\": " ++
    toString window_seconds ++ "\x7d"

/-- RateLimitingMiddleware.handle.  The user identity comes from
`request.context` (default "anonymous"); entries older than
`now - window_seconds` are dropped and the cleaned log is written back; the
request is blocked with 429 (no delegation) when the recent count already
reaches `max_requests`, else `(now, 1)` is appended and the wrapped handler
is called once. -/
def rateLimitHandle (inner : HTTPRequest → HTTPResponse)
    (st : RateLimitState) (now : Int) (req : HTTPRequest) :
    HTTPResponse × RateLimitState × Nat :=
  let user_id := (assocGet req.context "user_id").getD "anonymous"
  let cutoff := now - st.window_seconds
  let cleaned := ((assocGet st.request_log user_id).getD []).filter
    (fun p => decide (cutoff < p.1))
  let recent_requests := (cleaned.map Prod.snd).sum
  if st.max_requests ≤ recent_requests then
    ({ status_code := 429, body := rateLimitBody429 st.window_seconds,
       headers := [], execution_time_ms := none },
     { st with request_log := assocSet st.request_log user_id cleaned },
     0)
  else
    (inner req,
     { st with request_log := assocSet st.request_log user_id (cleaned ++ [(now, 1)]) },
     1)

/-- Sequential invocations of the rate limiter with the same request at the
given timestamps, collecting each (response, delegation count). -/
def runRate (inner : HTTPRequest → HTTPResponse) (st : RateLimitState)
    (req : HTTPRequest) : List Int → List (HTTPResponse × Nat) × RateLimitState
  | [] => ([], st)
  | t :: ts =>
    let out := rateLimitHandle inner st t req
    let tail := runRate inner out.2.1 req ts
    ((out.1, out.2.2) :: tail.1, tail.2)

/-- MetricsMiddleware counters.  The source also keeps float
`endpoint_stats` running averages, not part of any counted invariant and
omitted here; `total_latency_ms` is the abstract sum of the measured
latencies. -/
structure MetricsState where
  total_requests : Nat
  successful_requests : Nat
  failed_requests : Nat
  total_latency_ms : Nat
  status_codes : List (Int × Nat)
deriving DecidableEq, Repr

/-- MetricsMiddleware.__init__ : all counters start at zero. -/
def metricsInit : MetricsState :=
  { total_requests := 0, successful_requests := 0, failed_requests := 0,
    total_latency_ms := 0, status_codes := [] }

/-- Increment of the per-status counter (`defaultdict(int)` bump). -/
def bumpCode : List (Int × Nat) → Int → List (Int × Nat)
  | [], c => [(c, 1)]
  | (k, v) :: rest, c =>
    if k = c then (k, v + 1) :: rest else (k, v) :: bumpCode rest c

/-- MetricsMiddleware.handle.  On a returned response: bump totals, the
response's status counter and success/failure according to `is_success`.
On an `HTTPException` from the wrapped handler: bump totals, failures and
the exception's status counter, then re-raise.  The latency measurement is
an abstract parameter. -/
def metricsHandle (inner : HTTPRequest → Except HTTPException HTTPResponse)
    (st : MetricsState) (latency_ms : Nat) (req : HTTPRequest) :
    Except HTTPException HTTPResponse × MetricsState :=
  match inner req with
  | Except.ok response =>
    (Except.ok response,
     { total_requests := st.total_requests + 1
       successful_requests :=
         if response.is_success then st.successful_requests + 1
         else st.successful_requests
       failed_requests :=
         if response.is_success then st.failed_requests
         else st.failed_requests + 1
       total_latency_ms := st.total_latency_ms + latency_ms
       status_codes := bumpCode st.status_codes response.status_code })
  | Except.error e =>
    (Except.error e,
     { total_requests := st.total_requests + 1
       successful_requests := st.successful_requests
       failed_requests := st.failed_requests + 1
       total_latency_ms := st.total_latency_ms + latency_ms
       status_codes := bumpCode st.status_codes e.status_code })

/-- Sum of all per-status counters. -/
def sumCodes (m : List (Int × Nat)) : Nat := (m.map Prod.snd).sum

/-- The counted invariant of the metrics unit: the total equals successes
plus failures, and every recorded call contributed exactly one status-code
tick (both the response path and the `HTTPException` path record a status),
so the status counters sum to the total. -/
def metricsInvariant (st : MetricsState) : Prop :=
  st.total_requests = st.successful_requests + st.failed_requests ∧
  sumCodes st.status_codes = st.total_requests

/-- One middleware unit, in the shape every concrete decorator of the source
follows (spec §4.1): pre-delegation logic that may rewrite the request, an
optional short-circuit that fabricates a response without delegating, and
post-delegation logic applied to the inner result. -/
structure MWUnit where
  pre : HTTPRequest → HTTPRequest
  short_circuit : HTTPRequest → Option HTTPResponse
  post : HTTPRequest → HTTPResponse → HTTPResponse

/-- Observable execution events of a pipeline run. -/
inductive PipelineEvent where
  | preLogic (name : String)
  | postLogic (name : String)
  | core
deriving DecidableEq, Repr

/-- Run a named chain of units around a terminal handler, collecting the
trace of executed unit logic.  A short-circuiting unit returns its fabricated
response immediately: neither the units inward of it nor the core run, and
control returns outward through the already-entered units' post-logic. -/
def runChain : List (String × MWUnit) → (HTTPRequest → HTTPResponse) →
    HTTPRequest → HTTPResponse × List PipelineEvent
  | [], handler, req => (handler req, [PipelineEvent.core])
  | (name, u) :: rest, handler, req =>
    let req1 := u.pre req
    match u.short_circuit req1 with
    | some response => (response, [PipelineEvent.preLogic name])
    | none =>
      let inner := runChain rest handler req1
      (u.post req1 inner.1,
       PipelineEvent.preLogic name :: inner.2 ++ [PipelineEvent.postLogic name])

/-- A heap of response objects; an index into `objs` is an object identity.
Used to embed Python's reference semantics for responses. -/
structure ResponseHeap where
  objs : List HTTPResponse
deriving DecidableEq, Repr

/-- Allocate a fresh response object, returning its identity. -/
def heapAlloc (h : ResponseHeap) (r : HTTPResponse) : Nat × ResponseHeap :=
  (h.objs.length, { objs := h.objs ++ [r] })

/-- Read a response object (out-of-range reads yield a dummy, never hit by
the embedded programs). -/
def heapGet (h : ResponseHeap) (i : Nat) : HTTPResponse :=
  h.objs.getD i { status_code := 0, body := "", headers := [], execution_time_ms := none }

/-- In-place `response.set_header` on the object with identity `i`. -/
def heapSetHeader (h : ResponseHeap) (i : Nat) (name value : String) : ResponseHeap :=
  { objs := h.objs.set i ((heapGet h i).set_header name value) }

/-- CachingMiddleware state under reference semantics: the table stores
response object identities, not copies. -/
structure CacheStateRef where
  ttl_seconds : Int
  cache : List (String × (Nat × Int))
deriving DecidableEq, Repr

/-- Miss path of CachingMiddleware.handle under reference semantics: the
*identity* of the delegated response is stored in the table and the very
same object is mutated with `x-cache: MISS` and returned. -/
def cachingFetchRef (inner : HTTPRequest → ResponseHeap → Nat × ResponseHeap)
    (st : CacheStateRef) (h : ResponseHeap) (now : Int) (req : HTTPRequest)
    (key : String) : Nat × CacheStateRef × ResponseHeap :=
  let out := inner req h
  if (heapGet out.2 out.1).is_success then
    (out.1,
     { st with cache := assocSet st.cache key (out.1, now + st.ttl_seconds) },
     heapSetHeader out.2 out.1 "x-cache" "MISS")
  else
    (out.1, st, out.2)

/-- CachingMiddleware.handle under reference semantics.  On a fresh hit the
source executes `cached_response.set_header("x-cache", "HIT")` on the stored
object itself (the line is commented "Return a copy to avoid mutation" but
no copy is made) and returns that same object. -/
def cachingHandleRef (inner : HTTPRequest → ResponseHeap → Nat × ResponseHeap)
    (st : CacheStateRef) (h : ResponseHeap) (now : Int) (req : HTTPRequest) :
    Nat × CacheStateRef × ResponseHeap :=
  if req.method ≠ HTTPMethod.GET then
    let out := inner req h
    (out.1, st, out.2)
  else
    let key := generate_cache_key req
    match assocGet st.cache key with
    | some (rid, expiry) =>
      if now < expiry then
        (rid, st, heapSetHeader h rid "x-cache" "HIT")
      else
        cachingFetchRef inner { st with cache := assocRemove st.cache key } h now req key
    | none => cachingFetchRef inner st h now req key

/-- Lookup after an update at the same key finds the new value. -/
theorem assocGet_assocSet_self {β : Type} (m : List (String × β)) (k : String) (v : β) :
    assocGet (assocSet m k v) k = some v := by
  induction m with
  | nil => simp [assocSet, assocGet]
  | cons p rest ih =>
    obtain ⟨k1, v1⟩ := p
    by_cases h : k1 = k
    · simp [assocSet, assocGet, h]
    · simp [assocSet, assocGet, h, ih]

/-- Deleting an absent key leaves the table unchanged. -/
theorem assocRemove_of_none {β : Type} (m : List (String × β)) (k : String)
    (h : assocGet m k = none) : assocRemove m k = m := by
  induction m with
  | nil => rfl
  | cons p rest ih =>
    obtain ⟨k1, v1⟩ := p
    by_cases hk : k1 = k
    · simp [assocGet, hk] at h
    · simp [assocGet, hk] at h
      simp [assocRemove, hk, ih h]

/-- Every binding surviving a deletion was already in the table. -/
theorem mem_assocRemove {β : Type} (m : List (String × β)) (k : String)
    (p : String × β) (hp : p ∈ assocRemove m k) : p ∈ m := by
  induction m with
  | nil => simp [assocRemove] at hp
  | cons q rest ih =>
    obtain ⟨k1, v1⟩ := q
    by_cases hk : k1 = k
    · simp [assocRemove, hk] at hp
      exact List.mem_cons_of_mem _ hp
    · simp [assocRemove, hk] at hp
      rcases hp with h1 | h1
      · simp [h1]
      · exact List.mem_cons_of_mem _ (ih h1)

/-- Every binding after an update was already present or is the new one. -/
theorem mem_assocSet {β : Type} (m : List (String × β)) (k : String) (v : β)
    (p : String × β) (hp : p ∈ assocSet m k v) : p ∈ m ∨ p = (k, v) := by
  induction m with
  | nil =>
    simp [assocSet] at hp
    simp [hp]
  | cons q rest ih =>
    obtain ⟨k1, v1⟩ := q
    by_cases hk : k1 = k
    · simp [assocSet, hk] at hp
      rcases hp with h1 | h1
      · right; rw [h1]
      · left; exact List.mem_cons_of_mem _ h1
    · simp [assocSet, hk] at hp
      rcases hp with h1 | h1
      · left; simp [h1]
      · rcases ih h1 with h2 | h2
        · left; exact List.mem_cons_of_mem _ h2
        · right; exact h2

/-- set_header leaves the response body untouched. -/
theorem set_header_body (r : HTTPResponse) (n v : String) :
    (r.set_header n v).body = r.body := rfl

/-- set_header leaves the status code untouched. -/
theorem set_header_status (r : HTTPResponse) (n v : String) :
    (r.set_header n v).status_code = r.status_code := rfl

/-- set_header leaves the success flag untouched. -/
theorem set_header_is_success (r : HTTPResponse) (n v : String) :
    (r.set_header n v).is_success = r.is_success := rfl

/-- Whether the cache table holds a still-fresh entry for `key` at `now`
(the hit condition of CachingMiddleware.handle). -/
def freshEntry (st : CacheState) (now : Int) (key : String) : Bool :=
  match assocGet st.cache key with
  | none => false
  | some e => decide (now < e.2)

/-- The cache state with the entry for `key` deleted. -/
def evictKey (st : CacheState) (key : String) : CacheState :=
  { st with cache := assocRemove st.cache key }

/-- A GET call that finds no fresh entry (absent or expired) behaves as the
miss path on the evicted state. -/
theorem cachingHandle_miss (inner : HTTPRequest → HTTPResponse)
    (st : CacheState) (now : Int) (req : HTTPRequest)
    (hGET : req.method = HTTPMethod.GET)
    (hnf : freshEntry st now (generate_cache_key req) = false) :
    cachingHandle inner st now req =
      cachingFetch inner (evictKey st (generate_cache_key req)) now req
        (generate_cache_key req) := by
  unfold cachingHandle
  rw [if_neg (by simp [hGET])]
  unfold freshEntry at hnf
  dsimp only
  cases hlook : assocGet st.cache (generate_cache_key req) with
  | none =>
    have hrm : assocRemove st.cache (generate_cache_key req) = st.cache :=
      assocRemove_of_none _ _ hlook
    dsimp only
    unfold evictKey
    rw [hrm]
  | some e =>
    obtain ⟨r, ex⟩ := e
    rw [hlook] at hnf
    dsimp only at hnf ⊢
    simp only [decide_eq_false_iff_not] at hnf
    rw [if_neg hnf]
    rfl

/-- The miss path always delegates exactly once. -/
theorem cachingFetch_deleg (inner : HTTPRequest → HTTPResponse)
    (st : CacheState) (now : Int) (req : HTTPRequest) (key : String) :
    (cachingFetch inner st now req key).2.2 = 1 := by
  unfold cachingFetch
  dsimp only
  split <;> rfl

/-- Miss path on a successful fresh response: the response (tagged
`x-cache: MISS`) is stored with expiry `now + ttl` and returned. -/
theorem cachingFetch_success (inner : HTTPRequest → HTTPResponse)
    (st : CacheState) (now : Int) (req : HTTPRequest) (key : String)
    (hok : (inner req).is_success = true) :
    cachingFetch inner st now req key =
      ((inner req).set_header "x-cache" "MISS",
       { st with
           cache := assocSet st.cache key
             ((inner req).set_header "x-cache" "MISS", now + st.ttl_seconds) },
       1) := by
  unfold cachingFetch
  dsimp only
  rw [if_pos hok]

/-- Miss path on a failed fresh response: nothing is stored. -/
theorem cachingFetch_failure (inner : HTTPRequest → HTTPResponse)
    (st : CacheState) (now : Int) (req : HTTPRequest) (key : String)
    (hf : (inner req).is_success = false) :
    cachingFetch inner st now req key = (inner req, st, 1) := by
  unfold cachingFetch
  dsimp only
  rw [if_neg (by simp [hf])]

/-- A GET call finding a fresh entry returns it (tagged `x-cache: HIT`,
written back into the table, zero delegations). -/
theorem cachingHandle_hit (inner : HTTPRequest → HTTPResponse)
    (st : CacheState) (now : Int) (req : HTTPRequest)
    (r : HTTPResponse) (e : Int)
    (hGET : req.method = HTTPMethod.GET)
    (hlook : assocGet st.cache (generate_cache_key req) = some (r, e))
    (hfresh : now < e) :
    cachingHandle inner st now req =
      (r.set_header "x-cache" "HIT",
       { st with
           cache := assocSet st.cache (generate_cache_key req)
             (r.set_header "x-cache" "HIT", e) },
       0) := by
  unfold cachingHandle
  rw [if_neg (by simp [hGET])]
  dsimp only
  rw [hlook]
  dsimp only
  rw [if_pos hfresh]

/-- Concrete 200 handler used by the witnesses. -/
def sampleInner : HTTPRequest → HTTPResponse :=
  fun _ => { status_code := 200, body := "users-body", headers := [],
             execution_time_ms := none }

/-- Concrete GET request used by the witnesses. -/
def sampleGetReq : HTTPRequest :=
  { method := HTTPMethod.GET, path := "/users", headers := [], body := none,
    query_params := [], context := [], request_id := none }

/-- Concrete POST request used by the witnesses. -/
def samplePostReq : HTTPRequest :=
  { method := HTTPMethod.POST, path := "/users", headers := [], body := none,
    query_params := [], context := [], request_id := none }

/-- Concrete empty cache state used by the witnesses. -/
def emptyCache : CacheState := { ttl_seconds := 60, cache := [] }

/-- C6: for every non-GET request the caching unit delegates directly to the
inner handler (exactly one delegation) and the cache table is neither read
nor written: the state after the call is the state before it. -/
theorem caching_nonGET_bypass (inner : HTTPRequest → HTTPResponse)
    (st : CacheState) (now : Int) (req : HTTPRequest)
    (h : req.method ≠ HTTPMethod.GET) :
    cachingHandle inner st now req = (inner req, st, 1) := by
  unfold cachingHandle
  rw [if_pos h]

/-- C6 witness: a concrete POST request bypasses a concrete cache. -/
theorem caching_nonGET_bypass_witness :
    samplePostReq.method ≠ HTTPMethod.GET ∧
    cachingHandle sampleInner emptyCache 0 samplePostReq =
      (sampleInner samplePostReq, emptyCache, 1) :=
  ⟨by decide, caching_nonGET_bypass sampleInner emptyCache 0 samplePostReq (by decide)⟩

/-- C5: whenever the credential is missing or not in the valid set, the
authentication unit returns a 401 response as an ordinary `Except.ok` value,
performs zero delegations, and raises nothing. -/
theorem auth_rejects_with_401 (valid_tokens : List String)
    (inner : HTTPRequest → Except HTTPException HTTPResponse) (req : HTTPRequest)
    (h : authRejected valid_tokens req = true) :
    ∃ r, authHandle valid_tokens inner req = (Except.ok r, 0) ∧
      r.status_code = 401 := by
  unfold authHandle authRejected at *
  cases hlook : req.get_header "authorization" none with
  | none =>
    exact ⟨_, rfl, rfl⟩
  | some a =>
    rw [hlook] at h
    dsimp only at h ⊢
    by_cases he : a = ""
    · rw [if_pos he]
      exact ⟨_, rfl, rfl⟩
    · rw [if_neg he]
      simp only [Bool.or_eq_true, decide_eq_true_eq, Bool.not_eq_true',
        decide_eq_false_iff_not] at h
      rcases h with h | h
      · exact absurd h he
      · rw [if_neg h]
        exact ⟨_, rfl, rfl⟩

/-- C5 witness: a request without an authorization header is rejected with a
401 value and zero delegations. -/
theorem auth_rejects_with_401_witness :
    authRejected ["secret-token-123"] sampleGetReq = true ∧
    ∃ r, authHandle ["secret-token-123"]
        (fun _ => Except.ok (sampleInner sampleGetReq)) sampleGetReq =
        (Except.ok r, 0) ∧ r.status_code = 401 :=
  ⟨rfl, auth_rejects_with_401 ["secret-token-123"]
    (fun _ => Except.ok (sampleInner sampleGetReq)) sampleGetReq rfl⟩

/-- C7 counterexample: constructing the caching unit or the caching proxy
with the negative TTL -1 does not fault; both constructors return an
ordinary state, so no configuration fault is raised at assembly time. -/
theorem negative_ttl_construction_succeeds :
    cachingInit (-1) = Except.ok { ttl_seconds := -1, cache := [] } ∧
    cachingProxyInit (-1) = Except.ok { cache_ttl := -1, cache := [] } :=
  ⟨rfl, rfl⟩

/-- C7 amended: construction never fails, for any TTL (negative included):
both constructors perform no validation and simply store the given value
with an empty table. -/
theorem construction_never_faults (ttl : Int) :
    cachingInit ttl = Except.ok { ttl_seconds := ttl, cache := [] } ∧
    cachingProxyInit ttl = Except.ok { cache_ttl := ttl, cache := [] } :=
  ⟨rfl, rfl⟩

/-- A key absent from every binding is not found. -/
theorem assocGet_eq_none_of_forall {β : Type} (m : List (String × β)) (k : String)
    (h : ∀ p ∈ m, p.1 ≠ k) : assocGet m k = none := by
  induction m with
  | nil => rfl
  | cons p rest ih =>
    obtain ⟨k1, v1⟩ := p
    have h1 : k1 ≠ k := h (k1, v1) (List.mem_cons_self _ _)
    simp only [assocGet, if_neg h1]
    exact ih (fun q hq => h q (List.mem_cons_of_mem _ hq))

/-- Under unique keys (a Python dict always has them), deleting a key makes
it absent. -/
theorem assocGet_assocRemove_self {β : Type} (m : List (String × β)) (k : String)
    (hnd : (m.map Prod.fst).Nodup) : assocGet (assocRemove m k) k = none := by
  induction m with
  | nil => rfl
  | cons p rest ih =>
    obtain ⟨k1, v1⟩ := p
    simp only [List.map_cons, List.nodup_cons, List.mem_map] at hnd
    by_cases hk : k1 = k
    · simp only [assocRemove, if_pos hk]
      subst hk
      exact assocGet_eq_none_of_forall rest k1
        (fun q hq hcon => hnd.1 ⟨q, hq, hcon⟩)
    · simp only [assocRemove, if_neg hk, assocGet, if_neg hk]
      exact ih hnd.2

/-- C1: after a GET miss at time t0 stores a successful response, a second
identical call at any t1 < t0 + ttl is a hit: zero delegations and a body
bit-identical to the first response's body; a call at any t2 > t0 + ttl
finds the entry expired, delegates exactly once and behaves as the miss
path on the evicted state.  The stock caching proxy obeys the same TTL
boundary: a lookup before stored_at + ttl returns the stored data with zero
delegations, a lookup after it delegates exactly once and re-stores. -/
theorem caching_ttl_boundary
    (inner inner2 inner3 : HTTPRequest → HTTPResponse)
    (st : CacheState) (t0 t1 t2 : Int) (req : HTTPRequest)
    (hGET : req.method = HTTPMethod.GET)
    (hnf : freshEntry st t0 (generate_cache_key req) = false)
    (hok : (inner req).is_success = true)
    (hhit : t1 < t0 + st.ttl_seconds)
    (hexp : t0 + st.ttl_seconds < t2) :
    (cachingHandle inner st t0 req).2.2 = 1 ∧
    (cachingHandle inner st t0 req).1.body = (inner req).body ∧
    (cachingHandle inner2 (cachingHandle inner st t0 req).2.1 t1 req).2.2 = 0 ∧
    (cachingHandle inner2 (cachingHandle inner st t0 req).2.1 t1 req).1.body =
      (cachingHandle inner st t0 req).1.body ∧
    (cachingHandle inner3 (cachingHandle inner st t0 req).2.1 t2 req).2.2 = 1 ∧
    cachingHandle inner3 (cachingHandle inner st t0 req).2.1 t2 req =
      cachingFetch inner3
        (evictKey (cachingHandle inner st t0 req).2.1 (generate_cache_key req))
        t2 req (generate_cache_key req) ∧
    (∀ (svc : String → StockData) (pst : ProxyState) (pnow : Int)
        (ticker : String) (d : StockData),
      assocGet pst.cache ticker = some d →
      (pnow < d.timestamp + pst.cache_ttl →
        get_stock_price svc pst pnow ticker = (d, pst, 0)) ∧
      (d.timestamp + pst.cache_ttl < pnow →
        get_stock_price svc pst pnow ticker =
          (svc ticker,
           { pst with cache := assocSet pst.cache ticker (svc ticker) },
           1))) := by
  have hfirst : cachingHandle inner st t0 req =
      ((inner req).set_header "x-cache" "MISS",
       { evictKey st (generate_cache_key req) with
           cache := assocSet (evictKey st (generate_cache_key req)).cache
             (generate_cache_key req)
             ((inner req).set_header "x-cache" "MISS", t0 + st.ttl_seconds) },
       1) := by
    rw [cachingHandle_miss inner st t0 req hGET hnf]
    exact cachingFetch_success inner _ t0 req _ hok
  have hlook1 : assocGet (cachingHandle inner st t0 req).2.1.cache
      (generate_cache_key req) =
      some ((inner req).set_header "x-cache" "MISS", t0 + st.ttl_seconds) := by
    rw [hfirst]
    exact assocGet_assocSet_self _ _ _
  have hsecond := cachingHandle_hit inner2 (cachingHandle inner st t0 req).2.1
    t1 req ((inner req).set_header "x-cache" "MISS") (t0 + st.ttl_seconds)
    hGET hlook1 hhit
  have hnf2 : freshEntry (cachingHandle inner st t0 req).2.1 t2
      (generate_cache_key req) = false := by
    unfold freshEntry
    rw [hlook1]
    simp only [decide_eq_false_iff_not]
    omega
  have hthird := cachingHandle_miss inner3 (cachingHandle inner st t0 req).2.1
    t2 req hGET hnf2
  refine ⟨?_, ?_, ?_, ?_, ?_, hthird, ?_⟩
  · rw [hfirst]
  · rw [hfirst]
    exact set_header_body _ _ _
  · rw [hsecond]
  · rw [hsecond, hfirst]
    exact set_header_body ((inner req).set_header "x-cache" "MISS") "x-cache" "HIT"
  · rw [hthird]
    exact cachingFetch_deleg _ _ _ _ _
  · intro svc pst pnow ticker d hd
    constructor
    · intro hfresh
      unfold get_stock_price
      rw [hd]
      dsimp only
      rw [if_pos (by omega)]
    · intro hstale
      unfold get_stock_price
      rw [hd]
      dsimp only
      rw [if_neg (by omega)]

/-- C1 witness: at ttl 60, a miss at time 0 followed by the same GET at
time 30 hits with zero delegations; the same GET at time 100 delegates
once. -/
theorem caching_ttl_boundary_witness :
    (cachingHandle sampleInner emptyCache 0 sampleGetReq).2.2 = 1 ∧
    (cachingHandle sampleInner
      (cachingHandle sampleInner emptyCache 0 sampleGetReq).2.1 30 sampleGetReq).2.2 = 0 ∧
    (cachingHandle sampleInner
      (cachingHandle sampleInner emptyCache 0 sampleGetReq).2.1 100 sampleGetReq).2.2 = 1 :=
  ⟨(caching_ttl_boundary sampleInner sampleInner sampleInner emptyCache 0 30 100
      sampleGetReq rfl rfl (by decide) (by decide) (by decide)).1,
   (caching_ttl_boundary sampleInner sampleInner sampleInner emptyCache 0 30 100
      sampleGetReq rfl rfl (by decide) (by decide) (by decide)).2.2.1,
   (caching_ttl_boundary sampleInner sampleInner sampleInner emptyCache 0 30 100
      sampleGetReq rfl rfl (by decide) (by decide) (by decide)).2.2.2.2.1⟩

/-- C2: a cacheable GET whose delegation yields a failure (status outside
2xx) returns that failure unchanged after exactly one delegation, stores
nothing (under the dict invariant of unique keys the key is absent
afterwards), so an identical follow-up call delegates again; and a table
holding only successful responses still holds only successful responses. -/
theorem caching_failure_not_stored
    (inner inner2 : HTTPRequest → HTTPResponse)
    (st : CacheState) (now now2 : Int) (req : HTTPRequest)
    (hGET : req.method = HTTPMethod.GET)
    (hnd : (st.cache.map Prod.fst).Nodup)
    (hnf : freshEntry st now (generate_cache_key req) = false)
    (hfail : (inner req).is_success = false) :
    cachingHandle inner st now req =
      (inner req, evictKey st (generate_cache_key req), 1) ∧
    assocGet (cachingHandle inner st now req).2.1.cache
      (generate_cache_key req) = none ∧
    (cachingHandle inner2 (cachingHandle inner st now req).2.1 now2 req).2.2 = 1 ∧
    ((∀ p ∈ st.cache, (p.2.1).is_success = true) →
      ∀ p ∈ (cachingHandle inner st now req).2.1.cache,
        (p.2.1).is_success = true) := by
  have hmain : cachingHandle inner st now req =
      (inner req, evictKey st (generate_cache_key req), 1) := by
    rw [cachingHandle_miss inner st now req hGET hnf]
    exact cachingFetch_failure inner _ now req _ hfail
  have hgone : assocGet (cachingHandle inner st now req).2.1.cache
      (generate_cache_key req) = none := by
    rw [hmain]
    exact assocGet_assocRemove_self _ _ hnd
  refine ⟨hmain, hgone, ?_, ?_⟩
  · have hnf2 : freshEntry (cachingHandle inner st now req).2.1 now2
        (generate_cache_key req) = false := by
      unfold freshEntry
      rw [hgone]
    rw [cachingHandle_miss inner2 _ now2 req hGET hnf2]
    exact cachingFetch_deleg _ _ _ _ _
  · intro hall p hp
    rw [hmain] at hp
    exact hall p (mem_assocRemove _ _ p hp)

/-- Concrete 500 response used by the C2 witness. -/
def sampleFailResp : HTTPResponse :=
  { status_code := 500, body := "boom", headers := [], execution_time_ms := none }

/-- Concrete failing handler used by the C2 witness. -/
def sampleFailInner : HTTPRequest → HTTPResponse := fun _ => sampleFailResp

/-- C2 witness: a failing delegation (status 500) at time 0 from the empty
cache is returned unchanged and nothing is stored. -/
theorem caching_failure_not_stored_witness :
    cachingHandle sampleFailInner emptyCache 0 sampleGetReq =
      (sampleFailResp,
       evictKey emptyCache (generate_cache_key sampleGetReq), 1) :=
  (caching_failure_not_stored sampleFailInner sampleFailInner
    emptyCache 0 7 sampleGetReq rfl (by decide) rfl (by decide)).1

/-- Concrete request whose header was stored under a mixed-case key. -/
def mixedCaseReq : HTTPRequest :=
  { method := HTTPMethod.GET, path := "/users",
    headers := [("Authorization", "Bearer secret-token-123")], body := none,
    query_params := [], context := [], request_id := none }

/-- C9 counterexample: a header stored under the mixed-case key
"Authorization" is present in the table, yet `get_header` cannot find it
under any lookup casing, because only the lookup name is lowercased. -/
theorem get_header_storage_case_sensitive :
    assocGet mixedCaseReq.headers "Authorization" = some "Bearer secret-token-123" ∧
    mixedCaseReq.get_header "Authorization" none = none ∧
    mixedCaseReq.get_header "authorization" none = none := by
  refine ⟨by decide, by decide, by decide⟩

/-- C9 amended: lookup is case-insensitive in the lookup name for headers
stored through `set_header` (which lowercases the storage key): whatever
casings are used to store and to look up, as long as the two names agree up
to case, the stored value is found. -/
theorem get_header_set_header_case_insensitive (req : HTTPRequest)
    (n1 n2 v : String) (h : strLower n1 = strLower n2) :
    (req.set_header n1 v).get_header n2 none = some v := by
  unfold HTTPRequest.get_header HTTPRequest.set_header
  simp only [← h, assocGet_assocSet_self]

/-- C9 amended witness: storing via set_header under "Content-Type" and
looking up "CONTENT-TYPE" finds the value. -/
theorem get_header_set_header_case_insensitive_witness :
    strLower "Content-Type" = strLower "CONTENT-TYPE" ∧
    (sampleGetReq.set_header "Content-Type" "text/html").get_header
      "CONTENT-TYPE" none = some "text/html" :=
  ⟨by decide, get_header_set_header_case_insensitive sampleGetReq
    "Content-Type" "CONTENT-TYPE" "text/html" (by decide)⟩

/-- Concrete 200 response allocated by the reference-semantics handler. -/
def sampleOkResp : HTTPResponse :=
  { status_code := 200, body := "users-body", headers := [],
    execution_time_ms := none }

/-- Concrete allocating handler for the reference-semantics scenario. -/
def sampleRefInner : HTTPRequest → ResponseHeap → Nat × ResponseHeap :=
  fun _ h => heapAlloc h sampleOkResp

/-- Concrete empty heap. -/
def emptyHeap : ResponseHeap := { objs := [] }

/-- Concrete empty reference-semantics cache with ttl 60. -/
def emptyCacheRef : CacheStateRef := { ttl_seconds := 60, cache := [] }

/-- First invocation: a miss that stores object 0 and returns it. -/
def refFirstCall : Nat × CacheStateRef × ResponseHeap :=
  cachingHandleRef sampleRefInner emptyCacheRef emptyHeap 0 sampleGetReq

/-- Second identical invocation one second later: a cache hit. -/
def refSecondCall : Nat × CacheStateRef × ResponseHeap :=
  cachingHandleRef sampleRefInner refFirstCall.2.1 refFirstCall.2.2 1 sampleGetReq

/-- C8 (code bug witness): both invocations return the same response object
(identity 0); after the first call that object's x-cache header is "MISS",
and the second invocation's hit path mutates the very object already
returned to the first caller, changing its header to "HIT" — the response is
not immutable once returned.  The source even comments the hit path "Return
a copy to avoid mutation" yet returns the original without copying. -/
theorem caching_hit_mutates_returned_response :
    refFirstCall.1 = 0 ∧
    refSecondCall.1 = 0 ∧
    assocGet (heapGet refFirstCall.2.2 0).headers "x-cache" = some "MISS" ∧
    assocGet (heapGet refSecondCall.2.2 0).headers "x-cache" = some "HIT" ∧
    heapGet refSecondCall.2.2 0 ≠ heapGet refFirstCall.2.2 0 := by
  refine ⟨rfl, rfl, by decide, by decide, by decide⟩

/-- C3: in any pipeline A (outer) wrapping B wrapping further units around
the core, if A delegates and B short-circuits, then the run's trace shows
A's pre-logic and A's post-logic both executed, while the core and every
unit strictly inward of B (named differently from A and B) never executed. -/
theorem pipeline_short_circuit_scope
    (nA nB : String) (A B : MWUnit) (rest : List (String × MWUnit))
    (handler : HTTPRequest → HTTPResponse) (req : HTTPRequest)
    (respB : HTTPResponse)
    (hA : A.short_circuit (A.pre req) = none)
    (hB : B.short_circuit (B.pre (A.pre req)) = some respB)
    (hnames : ∀ p ∈ rest, p.1 ≠ nA ∧ p.1 ≠ nB) :
    runChain ((nA, A) :: (nB, B) :: rest) handler req =
      (A.post (A.pre req) respB,
       [PipelineEvent.preLogic nA, PipelineEvent.preLogic nB,
        PipelineEvent.postLogic nA]) ∧
    PipelineEvent.preLogic nA ∈
      (runChain ((nA, A) :: (nB, B) :: rest) handler req).2 ∧
    PipelineEvent.postLogic nA ∈
      (runChain ((nA, A) :: (nB, B) :: rest) handler req).2 ∧
    PipelineEvent.core ∉
      (runChain ((nA, A) :: (nB, B) :: rest) handler req).2 ∧
    ∀ p ∈ rest,
      PipelineEvent.preLogic p.1 ∉
        (runChain ((nA, A) :: (nB, B) :: rest) handler req).2 ∧
      PipelineEvent.postLogic p.1 ∉
        (runChain ((nA, A) :: (nB, B) :: rest) handler req).2 := by
  have hrun : runChain ((nA, A) :: (nB, B) :: rest) handler req =
      (A.post (A.pre req) respB,
       [PipelineEvent.preLogic nA, PipelineEvent.preLogic nB,
        PipelineEvent.postLogic nA]) := by
    simp only [runChain, hA, hB]
    simp
  refine ⟨hrun, ?_, ?_, ?_, ?_⟩
  · rw [hrun]
    simp
  · rw [hrun]
    simp
  · rw [hrun]
    simp
  · intro p hp
    have hne := hnames p hp
    rw [hrun]
    simp [hne.1, hne.2]

/-- Concrete delegating unit: no short-circuit, identity pre and post. -/
def unitPassThrough : MWUnit :=
  { pre := fun r => r, short_circuit := fun _ => none, post := fun _ r => r }

/-- Concrete 401 response fabricated by the short-circuiting sample unit. -/
def sample401 : HTTPResponse :=
  { status_code := 401, body := authBody401Required, headers := [],
    execution_time_ms := none }

/-- Concrete short-circuiting unit (an authentication-style rejection). -/
def unitRejecting : MWUnit :=
  { pre := fun r => r, short_circuit := fun _ => some sample401,
    post := fun _ r => r }

/-- C3 witness: with outer unit "metrics", short-circuiting unit "auth" and
inner unit "caching", neither the inner unit nor the core executes, yet the
run is well-defined and returns the fabricated 401. -/
theorem pipeline_short_circuit_scope_witness :
    unitPassThrough.short_circuit (unitPassThrough.pre sampleGetReq) = none ∧
    unitRejecting.short_circuit
      (unitRejecting.pre (unitPassThrough.pre sampleGetReq)) = some sample401 ∧
    PipelineEvent.core ∉
      (runChain [("metrics", unitPassThrough), ("auth", unitRejecting),
        ("caching", unitPassThrough)] sampleInner sampleGetReq).2 :=
  ⟨rfl, rfl,
   (pipeline_short_circuit_scope "metrics" "auth" unitPassThrough unitRejecting
      [("caching", unitPassThrough)] sampleInner sampleGetReq sample401 rfl rfl
      (by
        intro p hp
        have hp1 := List.mem_singleton.mp hp
        rw [hp1]
        exact ⟨by decide, by decide⟩)).2.2.2.1⟩

/-- Bumping a status counter adds exactly one to the counter sum. -/
theorem sumCodes_bump (m : List (Int × Nat)) (c : Int) :
    sumCodes (bumpCode m c) = sumCodes m + 1 := by
  induction m with
  | nil => rfl
  | cons p rest ih =>
    obtain ⟨k, v⟩ := p
    by_cases h : k = c
    · simp only [bumpCode, if_pos h, sumCodes, List.map_cons, List.sum_cons]
      omega
    · simp only [bumpCode, if_neg h, sumCodes, List.map_cons, List.sum_cons]
      unfold sumCodes at ih
      omega

/-- C10: every completed metrics handle call (whether the wrapped handler
returns a response or raises an HTTPException) preserves the invariant that
total_requests equals successful_requests plus failed_requests and that the
status-code counters sum to the count of recorded calls (each of which
produced exactly one status code). -/
theorem metrics_invariant_preserved
    (inner : HTTPRequest → Except HTTPException HTTPResponse)
    (st : MetricsState) (latency_ms : Nat) (req : HTTPRequest)
    (h : metricsInvariant st) :
    metricsInvariant (metricsHandle inner st latency_ms req).2 := by
  obtain ⟨h1, h2⟩ := h
  unfold metricsHandle
  cases hres : inner req with
  | ok r =>
    by_cases hs : r.is_success = true <;>
      (constructor <;> simp [metricsInvariant, sumCodes_bump, hs] <;> omega)
  | error e =>
    constructor <;> simp [metricsInvariant, sumCodes_bump] <;> omega

/-- Concrete inner handler in the Except embedding, used by the witness. -/
def sampleExceptInner : HTTPRequest → Except HTTPException HTTPResponse :=
  fun r => Except.ok (sampleInner r)

/-- C10 witness: the freshly initialised metrics state satisfies the
invariant and one recorded call preserves it. -/
theorem metrics_invariant_preserved_witness :
    metricsInvariant metricsInit ∧
    metricsInvariant (metricsHandle sampleExceptInner metricsInit 5 sampleGetReq).2 :=
  ⟨⟨rfl, rfl⟩,
   metrics_invariant_preserved sampleExceptInner metricsInit 5 sampleGetReq ⟨rfl, rfl⟩⟩

/-- One rate-limiter step below the threshold: with the user's cleaned log
equal to `l` (all entries inside the window) and its count below the
maximum, the call delegates once and appends `(now, 1)` to the log. -/
theorem rateLimit_step_allowed (inner : HTTPRequest → HTTPResponse)
    (st : RateLimitState) (now : Int) (req : HTTPRequest)
    (u : String) (l : List (Int × Nat))
    (hu : (assocGet req.context "user_id").getD "anonymous" = u)
    (hl : (assocGet st.request_log u).getD [] = l)
    (hfil : l.filter (fun p => decide (now - st.window_seconds < p.1)) = l)
    (hsum : (l.map Prod.snd).sum < st.max_requests) :
    rateLimitHandle inner st now req =
      (inner req,
       { st with request_log := assocSet st.request_log u (l ++ [(now, 1)]) },
       1) := by
  unfold rateLimitHandle
  dsimp only
  rw [hu, hl, hfil, if_neg (Nat.not_le.mpr hsum)]

/-- One rate-limiter step at the threshold: the call is answered with the
429 response, zero delegations, and only the cleaned log is written back. -/
theorem rateLimit_step_blocked (inner : HTTPRequest → HTTPResponse)
    (st : RateLimitState) (now : Int) (req : HTTPRequest)
    (u : String) (l : List (Int × Nat))
    (hu : (assocGet req.context "user_id").getD "anonymous" = u)
    (hl : (assocGet st.request_log u).getD [] = l)
    (hfil : l.filter (fun p => decide (now - st.window_seconds < p.1)) = l)
    (hsum : st.max_requests ≤ (l.map Prod.snd).sum) :
    rateLimitHandle inner st now req =
      ({ status_code := 429, body := rateLimitBody429 st.window_seconds,
         headers := [], execution_time_ms := none },
       { st with request_log := assocSet st.request_log u l },
       0) := by
  unfold rateLimitHandle
  dsimp only
  rw [hu, hl, hfil, if_pos hsum]

/-- The 429 response of a limiter configured with a 60-second window. -/
def resp429window60 : HTTPResponse :=
  { status_code := 429, body := rateLimitBody429 60, headers := [],
    execution_time_ms := none }

/-- C4: with max 5 requests per 60-second window, six sequential calls of
the same request (hence the same identity), with ordered timestamps all
inside one window, produce five delegated success (200) responses followed
by a 429 with zero delegations — no unit inward of the rate limiter runs
for the sixth call. -/
theorem rate_limit_six_requests
    (inner : HTTPRequest → HTTPResponse) (req : HTTPRequest)
    (t1 t2 t3 t4 t5 t6 : Int)
    (h12 : t1 ≤ t2) (h23 : t2 ≤ t3) (h34 : t3 ≤ t4) (h45 : t4 ≤ t5)
    (h56 : t5 ≤ t6) (hwin : t6 < t1 + 60)
    (hok : (inner req).status_code = 200) :
    ((runRate inner { max_requests := 5, window_seconds := 60, request_log := [] }
        req [t1, t2, t3, t4, t5, t6]).1.map (fun p => (p.1.status_code, p.2))) =
      [(200, 1), (200, 1), (200, 1), (200, 1), (200, 1), (429, 0)] := by
  set u : String := (assocGet req.context "user_id").getD "anonymous" with hu
  have step1 : rateLimitHandle inner ⟨5, 60, []⟩ t1 req =
      (inner req, ⟨5, 60, [(u, [(t1, 1)])]⟩, 1) := by
    have h := rateLimit_step_allowed inner ⟨5, 60, []⟩ t1 req u []
      hu.symm rfl rfl (by simp)
    simpa [assocSet] using h
  have step2 : rateLimitHandle inner ⟨5, 60, [(u, [(t1, 1)])]⟩ t2 req =
      (inner req, ⟨5, 60, [(u, [(t1, 1), (t2, 1)])]⟩, 1) := by
    have h := rateLimit_step_allowed inner ⟨5, 60, [(u, [(t1, 1)])]⟩ t2 req u
      [(t1, 1)] hu.symm (by simp [assocGet])
      (by simp [List.filter_cons, show t2 - (60:Int) < t1 by omega])
      (by simp)
    simpa [assocSet] using h
  have step3 : rateLimitHandle inner ⟨5, 60, [(u, [(t1, 1), (t2, 1)])]⟩ t3 req =
      (inner req, ⟨5, 60, [(u, [(t1, 1), (t2, 1), (t3, 1)])]⟩, 1) := by
    have h := rateLimit_step_allowed inner ⟨5, 60, [(u, [(t1, 1), (t2, 1)])]⟩
      t3 req u [(t1, 1), (t2, 1)] hu.symm (by simp [assocGet])
      (by simp [List.filter_cons, show t3 - (60:Int) < t1 by omega,
        show t3 - (60:Int) < t2 by omega])
      (by simp)
    simpa [assocSet] using h
  have step4 : rateLimitHandle inner
      ⟨5, 60, [(u, [(t1, 1), (t2, 1), (t3, 1)])]⟩ t4 req =
      (inner req, ⟨5, 60, [(u, [(t1, 1), (t2, 1), (t3, 1), (t4, 1)])]⟩, 1) := by
    have h := rateLimit_step_allowed inner
      ⟨5, 60, [(u, [(t1, 1), (t2, 1), (t3, 1)])]⟩ t4 req u
      [(t1, 1), (t2, 1), (t3, 1)] hu.symm (by simp [assocGet])
      (by simp [List.filter_cons, show t4 - (60:Int) < t1 by omega,
        show t4 - (60:Int) < t2 by omega, show t4 - (60:Int) < t3 by omega])
      (by simp)
    simpa [assocSet] using h
  have step5 : rateLimitHandle inner
      ⟨5, 60, [(u, [(t1, 1), (t2, 1), (t3, 1), (t4, 1)])]⟩ t5 req =
      (inner req,
       ⟨5, 60, [(u, [(t1, 1), (t2, 1), (t3, 1), (t4, 1), (t5, 1)])]⟩, 1) := by
    have h := rateLimit_step_allowed inner
      ⟨5, 60, [(u, [(t1, 1), (t2, 1), (t3, 1), (t4, 1)])]⟩ t5 req u
      [(t1, 1), (t2, 1), (t3, 1), (t4, 1)] hu.symm (by simp [assocGet])
      (by simp [List.filter_cons, show t5 - (60:Int) < t1 by omega,
        show t5 - (60:Int) < t2 by omega, show t5 - (60:Int) < t3 by omega,
        show t5 - (60:Int) < t4 by omega])
      (by simp)
    simpa [assocSet] using h
  have step6 : rateLimitHandle inner
      ⟨5, 60, [(u, [(t1, 1), (t2, 1), (t3, 1), (t4, 1), (t5, 1)])]⟩ t6 req =
      (resp429window60,
       ⟨5, 60, [(u, [(t1, 1), (t2, 1), (t3, 1), (t4, 1), (t5, 1)])]⟩, 0) := by
    have h := rateLimit_step_blocked inner
      ⟨5, 60, [(u, [(t1, 1), (t2, 1), (t3, 1), (t4, 1), (t5, 1)])]⟩ t6 req u
      [(t1, 1), (t2, 1), (t3, 1), (t4, 1), (t5, 1)] hu.symm (by simp [assocGet])
      (by simp [List.filter_cons, show t6 - (60:Int) < t1 by omega,
        show t6 - (60:Int) < t2 by omega, show t6 - (60:Int) < t3 by omega,
        show t6 - (60:Int) < t4 by omega, show t6 - (60:Int) < t5 by omega])
      (by simp)
    simpa [assocSet, resp429window60] using h
  have hrun : (runRate inner
      { max_requests := 5, window_seconds := 60, request_log := [] }
      req [t1, t2, t3, t4, t5, t6]).1 =
      [(inner req, 1), (inner req, 1), (inner req, 1), (inner req, 1),
       (inner req, 1), (resp429window60, 0)] := by
    simp only [runRate, step1, step2, step3, step4, step5, step6]
  rw [hrun]
  simp [hok, resp429window60]

/-- C4 witness: six concrete calls at times 0..5 against a fresh limiter. -/
theorem rate_limit_six_requests_witness :
    ((0:Int) ≤ 1 ∧ (5:Int) < 0 + 60) ∧
    ((runRate sampleInner
        { max_requests := 5, window_seconds := 60, request_log := [] }
        sampleGetReq [0, 1, 2, 3, 4, 5]).1.map
          (fun p => (p.1.status_code, p.2))) =
      [(200, 1), (200, 1), (200, 1), (200, 1), (200, 1), (429, 0)] :=
  ⟨⟨by decide, by decide⟩,
   rate_limit_six_requests sampleInner sampleGetReq 0 1 2 3 4 5 (by decide)
     (by decide) (by decide) (by decide) (by decide) (by decide) rfl⟩

end Middleware
